import Mathlib

/-!
Verification of the journal-rankings scraper (journal_ranking.py and
ranking_app.py).  The HTML pages the program fetches are modelled as an
environment: a parsed search-results page, a parsed profile page, and a
function from page numbers to parsed listing pages.  Python exceptions are
modelled with Except; the try/except boundaries of the source are explicit
matches on those Except values.  Machine strings are Lean Strings; the
regular-expression searches of the source are modelled by the scanner
findDigitsAfterKey below, which implements the leftmost-match semantics of
re.search for the patterns key followed by one or more digits.
-/

/-- Models Python str.lower for ASCII characters (the only characters the
source site's markup and the test inputs use). -/
def lowerChar (c : Char) : Char :=
  if 'A' ≤ c ∧ c ≤ 'Z' then Char.ofNat (c.toNat + 32) else c

/-- Lower-cased character list of a string, models s.lower(). -/
def lowerStr (s : String) : List Char := s.toList.map lowerChar

/-- Models the Python substring test needle in hay on character lists:
true iff needle occurs contiguously in hay (the empty needle matches). -/
def isSubLC (needle : List Char) : List Char → Bool
  | [] => needle.isEmpty
  | c :: rest => needle.isPrefixOf (c :: rest) || isSubLC needle rest

/-- Models the case-insensitive containment test
journal_name.lower() in title.lower() from the source. -/
def lowerSub (needle hay : String) : Bool :=
  isSubLC (lowerStr needle) (lowerStr hay)

/-- Numeric value of a list of decimal digits, most significant first. -/
def natOfDigits (ds : List Char) : Nat :=
  ds.foldl (fun a c => a * 10 + (c.toNat - 48)) 0

/-- Models re.search for the pattern key(\d+) on a string: scan left to
right for a position where key is a prefix and at least one digit follows;
return the maximal digit run at the first such position. -/
def findDigitsAfterKey (key : List Char) : List Char → Option (List Char)
  | [] => none
  | c :: rest =>
    if key.isPrefixOf (c :: rest) then
      let ds := ((c :: rest).drop key.length).takeWhile (fun d => d.isDigit)
      if ds.isEmpty then findDigitsAfterKey key rest else some ds
    else findDigitsAfterKey key rest

/-- Value of the first key-digits occurrence in an href, as a number:
models int(re.search(key + digits, href).group(1)). -/
def paramValOf (key : String) (href : String) : Option Nat :=
  (findDigitsAfterKey key.toList href.toList).map natOfDigits

/-- Models the max-scan loops of get_total_journals: fold over the links,
replacing the accumulator whenever a strictly larger parameter value is
found (if val > acc: acc = val). -/
def maxParamFold (key : String) (acc : Nat) (links : List String) : Nat :=
  links.foldl (fun a href =>
    match paramValOf key href with
    | some v => if a < v then v else a
    | none => a) acc

/-- Models Python int(s) on the rank strings that occur here: optional
surrounding ASCII whitespace, an optional sign, then one or more decimal
digits (underscore separators and non-ASCII digits are not modelled). -/
def pyInt (s : String) : Option Int :=
  let isWs := fun (c : Char) => c = ' ' ∨ c = '\t' ∨ c = '\n' ∨ c = '\r'
  let cs := ((s.toList.dropWhile isWs).reverse.dropWhile isWs).reverse
  let digitsVal := fun (ds : List Char) =>
    if ds ≠ [] ∧ ds.all (fun d => d.isDigit) then some (natOfDigits ds) else none
  match cs with
  | '+' :: ds => (digitsVal ds).map Int.ofNat
  | '-' :: ds => (digitsVal ds).map (fun n => -(Int.ofNat n))
  | ds => (digitsVal ds).map Int.ofNat

/-- Models Python str.upper for ASCII characters. -/
def upperChar (c : Char) : Char :=
  if 'a' ≤ c ∧ c ≤ 'z' then Char.ofNat (c.toNat - 32) else c

/-- Upper-cased string, models s.upper(). -/
def pyUpper (s : String) : String := String.mk (s.toList.map upperChar)

/-- Models Python s.replace(pat, new-empty-string): remove every
non-overlapping occurrence of pat, scanning left to right (the source only
replaces with the empty string).  The fuel argument, supplied as the
length of the scanned list, only makes the recursion structural; each step
consumes at least one character, so it never runs out. -/
def replaceFuel (pat : List Char) : Nat → List Char → List Char
  | _, [] => []
  | 0, l => l
  | fuel + 1, c :: rest =>
    if pat ≠ [] ∧ pat.isPrefixOf (c :: rest) then
      replaceFuel pat fuel ((c :: rest).drop pat.length)
    else
      c :: replaceFuel pat fuel rest

/-- Models Python s.replace(pat, empty string). -/
def pyReplace (s pat : String) : String :=
  String.mk (replaceFuel pat.toList s.toList.length s.toList)

/-- Generic first-occurrence deduplication keeping discovery order; seen
holds the keys already emitted. -/
def dedupFirst (seen : List String) : List String → List String
  | [] => []
  | x :: xs => if x ∈ seen then dedupFirst seen xs else x :: dedupFirst (x :: seen) xs

/-! ## The parsed-document model -/

/-- An anchor of the journal-search results page: optional href attribute
and the optional jrnlname span text (absence of either makes the source
raise when it dereferences them). -/
structure SearchAnchor where
  href : Option String
  jrnlname : Option String
deriving DecidableEq

/-- A div with class search_results, carrying its anchors in document
order. -/
structure SearchDiv where
  anchors : List SearchAnchor
deriving DecidableEq

/-- An anchor of the profile page that has an href attribute (anchors
without href are rejected by the source's href=lambda filter before any
code in scope here runs). -/
structure CatLink where
  href : String
  text : String
deriving DecidableEq

/-- Outcome of fetching and parsing a page where the source checks no
status code: either some exception was raised, or a parsed document. -/
inductive Fetched (α : Type) where
  | exn
  | ok (a : α)
deriving DecidableEq

/-- Environment of get_journal_categories: the parsed search page (its
search_results divs) and the parsed profile page (its href-bearing
anchors). -/
structure CatEnv where
  search : Fetched (List SearchDiv)
  profile : Fetched (List CatLink)
deriving DecidableEq

/-- A table row of a ranking listing page: the text of its view-journal-
details anchor when present, the texts of its td cells, and the CSS
classes occurring on the row's elements. -/
structure Row where
  atitle : Option String
  cells : List String
  classes : List String
deriving DecidableEq

/-- A parsed ranking listing page: optional document title, the hrefs of
all links, and all table rows. -/
structure Page where
  title : Option String
  links : List String
  rows : List Row
deriving DecidableEq

/-- Outcome of fetching one listing page: an exception, a non-200 status,
or a parsed page. -/
inductive PageOutcome where
  | httpErr
  | exn
  | ok (pg : Page)
deriving DecidableEq

/-- Result of one iteration of the pagination loop body. -/
inductive IterRes (α : Type) where
  | found (r : α)
  | stop
  | next
deriving DecidableEq

/-! ## Code shared verbatim by the two source files -/

/-- Matching test of the pagination loops: the row has a view-journal-
details anchor and the query is a case-insensitive substring of its
text. -/
def rowMatches (name : String) (row : Row) : Bool :=
  match row.atitle with
  | some t => lowerSub name t
  | none => false

/-- The quartile loop of both sources: test q1, q2, q3, q4 in order; the
first class present on the row wins, uppercased; otherwise N/A. -/
def quartileOf (row : Row) : String :=
  match ["q1", "q2", "q3", "q4"].find? (fun q => row.classes.contains q) with
  | some q => pyUpper q
  | none => "N/A"

/-- Category id of a profile-page link: the digits after category= in its
href, kept as the matched digit string, or Unknown when the regex search
fails. -/
def catIdOf (href : String) : String :=
  match findDigitsAfterKey "category=".toList href.toList with
  | some ds => String.mk ds
  | none => "Unknown"

/-- The category_map loop of both sources: walk the filtered links,
inserting (id, name) the first time an id is seen; the accumulator is the
insertion-ordered map. -/
def buildCategoryMap (acc : List (String × String)) : List CatLink → List (String × String)
  | [] => acc
  | l :: ls =>
    let cid := catIdOf l.href
    if (acc.map Prod.fst).contains cid then buildCategoryMap acc ls
    else buildCategoryMap (acc ++ [(cid, l.text)]) ls

/-- Category extraction of both sources: keep the anchors whose href
contains the category-listing marker, then deduplicate by id keeping the
first-seen name, in discovery order. -/
def extractCategories (anchors : List CatLink) : List (String × String) :=
  buildCategoryMap []
    (anchors.filter (fun l => isSubLC "journalrank.php?category=".toList l.href.toList))

/-! ## journal_ranking.py (the command-line tool) -/

namespace JournalRanking

/-- Models get_total_journals of journal_ranking.py: the maximum
total_size parameter value over all links when positive, else 50 times the
maximum page parameter value when positive, else None. -/
def get_total_journals (links : List String) : Option Nat :=
  let max_total_size := maxParamFold "total_size=" 0 links
  if 0 < max_total_size then some max_total_size
  else
    let max_page := maxParamFold "page=" 0 links
    if 0 < max_page then some (max_page * 50) else none

/-- Result dictionary of journal_ranking.get_journal_categories:
journal title, (id, name) category pairs in discovery order, profile
url. -/
structure Profile where
  journal : String
  categories : List (String × String)
  url : String
deriving DecidableEq

/-- The try-block of journal_ranking.get_journal_categories, with each
Python raise surfaced as an Except error: take the first anchor of the
first search_results div (raising if its href attribute or jrnlname span
is missing), treat a falsy link as not-found, absolutise the url, then
extract the categories from the profile page. -/
def get_journal_categoriesRaw (env : CatEnv) : Except String (Option Profile) :=
  match env.search with
  | .exn => .error "search fetch or parse raised"
  | .ok divs =>
    let cand : Except String (Option (String × String)) :=
      match divs.head? with
      | none => .ok none
      | some d =>
        match d.anchors.head? with
        | none => .ok none
        | some a =>
          match a.href with
          | none => .error "KeyError: href"
          | some h =>
            match a.jrnlname with
            | none => .error "AttributeError: jrnlname span missing"
            | some t => .ok (some (h, t))
    match cand with
    | .error e => .error e
    | .ok none => .ok none
    | .ok (some (h, t)) =>
      if h = "" then .ok none
      else
        let link := if h.startsWith "http" then h else "https://www.scimagojr.com/" ++ h
        match env.profile with
        | .exn => .error "profile fetch or parse raised"
        | .ok anchors => .ok (some ⟨t, extractCategories anchors, link⟩)

/-- journal_ranking.get_journal_categories: the except-Exception boundary
turns every raised error of the body into a None result. -/
def get_journal_categories (env : CatEnv) : Option Profile :=
  match get_journal_categoriesRaw env with
  | .ok v => v
  | .error _ => none

/-- Result dictionary of journal_ranking.get_scimago_ranking. -/
structure RankResult where
  journal : String
  rank : String
  numberJournals : Option Nat
  quartile : String
  categoryId : Nat
  pageFound : Nat
deriving DecidableEq

/-- Row extraction of journal_ranking.get_scimago_ranking at a matched
row: cols[0] raises IndexError when the row has no td cell; otherwise the
record is built with the rank kept as the raw cell string. -/
def rankExtract (catId : Nat) (nj : Option Nat) (p : Nat) (row : Row) :
    Except String RankResult :=
  match row.cells.head? with
  | none => .error "IndexError: no td cells"
  | some rankStr =>
    .ok ⟨row.atitle.getD "", rankStr, nj, quartileOf row, catId, p⟩

/-- One iteration of the journal_ranking pagination loop body (the inside
of the try): non-200 breaks, an empty listing (at most the header row)
breaks, the first matching row returns a record (its extraction can
raise), otherwise continue to the next page. -/
def rankIter (name : String) (catId : Nat) (p : Nat) (out : PageOutcome) :
    Except String (IterRes RankResult) :=
  match out with
  | .exn => .error "fetch or parse raised"
  | .httpErr => .ok .stop
  | .ok pg =>
    let nj := get_total_journals pg.links
    if pg.rows.length ≤ 1 then .ok .stop
    else
      match pg.rows.find? (rowMatches name) with
      | some row => (rankExtract catId nj p row).map .found
      | none => .ok .next

/-- The while-True loop of journal_ranking.get_scimago_ranking, returning
the result together with the number of pages fetched.  Every break of the
source (error status, empty page, raised exception, page counter above
100) ends the loop with None; the fuel argument only makes the recursion
structural and the entry call supplies 100 = 101 - 1, which the
page-ceiling guard of the source never lets run out. -/
def rankLoop (name : String) (catId : Nat) (pages : Nat → PageOutcome) :
    Nat → Nat → Option RankResult × Nat
  | 0, _ => (none, 0)
  | fuel + 1, p =>
    match rankIter name catId p (pages p) with
    | .error _ => (none, 1)
    | .ok (.found r) => (some r, 1)
    | .ok .stop => (none, 1)
    | .ok .next =>
      if 100 < p + 1 then (none, 1)
      else
        let rc := rankLoop name catId pages fuel (p + 1)
        (rc.1, rc.2 + 1)

/-- journal_ranking.get_scimago_ranking on an environment of fetched
listing pages. -/
def get_scimago_ranking (name : String) (catId : Nat) (pages : Nat → PageOutcome) :
    Option RankResult :=
  (rankLoop name catId pages 100 1).1

/-- Number of listing pages the loop fetches. -/
def fetchCount (name : String) (catId : Nat) (pages : Nat → PageOutcome) : Nat :=
  (rankLoop name catId pages 100 1).2

/-- Models the percentile line of journal_ranking's main block,
100*int(result over Rank) divided by result over Number journals: int()
raises on a non-integer rank string and the division raises TypeError when
the total is None.  Only the numeric value is modelled, not the two-decimal
rendering. -/
def mainPercentile (r : RankResult) : Except String Rat :=
  match pyInt r.rank with
  | none => .error "ValueError: invalid literal for int"
  | some k =>
    match r.numberJournals with
    | none => .error "TypeError: unsupported operand with NoneType"
    | some n => .ok (100 * (k : Rat) / (n : Rat))

end JournalRanking

/-! ## ranking_app.py (the interactive form) -/

namespace RankingApp

/-- Models get_total_journals of ranking_app.py (textually identical to
the journal_ranking.py version). -/
def get_total_journals (links : List String) : Option Nat :=
  let max_total_size := maxParamFold "total_size=" 0 links
  if 0 < max_total_size then some max_total_size
  else
    let max_page := maxParamFold "page=" 0 links
    if 0 < max_page then some (max_page * 50) else none

/-- Models ranking_app.get_category_name: the stripped document title, or
the empty string when the page has none, with the fixed phrase removed. -/
def get_category_name (pg : Page) : String :=
  pyReplace (pg.title.getD "") "Journal Rankings on"

/-- The candidate loop of ranking_app.get_journal_categories: walk all
anchors of the first results div, overwriting the held link and title each
time (raising when href or the jrnlname span is missing), and stop early
at the first title that case-insensitively equals the query; when the loop
ends without an exact match the last anchor's data is held. -/
def selectCandidate (name : String) : List SearchAnchor → Except String (Option (String × String))
  | [] => .ok none
  | a :: rest =>
    match a.href with
    | none => .error "KeyError: href"
    | some h =>
      match a.jrnlname with
      | none => .error "AttributeError: jrnlname span missing"
      | some t =>
        if lowerStr t = lowerStr name then .ok (some (h, t))
        else
          match rest with
          | [] => .ok (some (h, t))
          | _ :: _ => selectCandidate name rest

/-- The try-block of ranking_app.get_journal_categories: index the first
search_results div (IndexError when there is none), run the candidate
loop, treat a falsy link as not-found, then extract the categories; the
result is the found title together with the name list and the id list. -/
def get_journal_categoriesRaw (name : String) (env : CatEnv) :
    Except String (Option (String × (List String × List String))) :=
  match env.search with
  | .exn => .error "search fetch or parse raised"
  | .ok divs =>
    match divs.head? with
    | none => .error "IndexError: list index out of range"
    | some d =>
      match selectCandidate name d.anchors with
      | .error e => .error e
      | .ok none => .ok none
      | .ok (some (h, t)) =>
        if h = "" then .ok none
        else
          match env.profile with
          | .exn => .error "profile fetch or parse raised"
          | .ok anchors =>
            let cats := extractCategories anchors
            .ok (some (t, (cats.map Prod.snd, cats.map Prod.fst)))

/-- ranking_app.get_journal_categories: the except-Exception boundary
turns every raised error of the body into a None result. -/
def get_journal_categories (name : String) (env : CatEnv) :
    Option (String × (List String × List String)) :=
  match get_journal_categoriesRaw name env with
  | .ok v => v
  | .error _ => none

/-- Result dictionary of ranking_app.get_scimago_ranking.  The percentile
field holds the exact value 100*int(rank)/number_journals; its two-decimal
rendering is not modelled. -/
structure RankResult where
  journal : String
  categoryName : String
  categoryRank : String
  percentile : Rat
  quartile : String
  year : String
deriving DecidableEq

/-- Row extraction of ranking_app.get_scimago_ranking at a matched row:
cols[0] raises IndexError when the row has no td cell; building the
dictionary raises ValueError when int(rank) fails and TypeError when
number_journals is None (the division by None); an empty year string is
replaced by the current year. -/
def rankExtract (year : String) (nowYear : Nat) (catName : String)
    (nj : Option Nat) (row : Row) : Except String RankResult :=
  match row.cells.head? with
  | none => .error "IndexError: no td cells"
  | some rankStr =>
    let quartile := quartileOf row
    let yearVal := if year = "" then toString nowYear else year
    match pyInt rankStr with
    | none => .error "ValueError: invalid literal for int"
    | some k =>
      match nj with
      | none => .error "TypeError: unsupported operand with NoneType"
      | some n =>
        .ok ⟨row.atitle.getD "", catName,
             "#" ++ rankStr ++ " of " ++ toString n,
             100 * (k : Rat) / (n : Rat), quartile, yearVal⟩

/-- One iteration of the ranking_app pagination loop body (the inside of
the try); identical to the journal_ranking one except that the category
name is read from the page title and the richer dictionary is built. -/
def rankIter (name year : String) (nowYear : Nat) (p : Nat) (out : PageOutcome) :
    Except String (IterRes RankResult) :=
  match out with
  | .exn => .error "fetch or parse raised"
  | .httpErr => .ok .stop
  | .ok pg =>
    let nj := get_total_journals pg.links
    let catName := get_category_name pg
    if pg.rows.length ≤ 1 then .ok .stop
    else
      match pg.rows.find? (rowMatches name) with
      | some row => (rankExtract year nowYear catName nj row).map .found
      | none => .ok .next

/-- The while-True loop of ranking_app.get_scimago_ranking, with the same
breaks and the same page ceiling as the journal_ranking one; fuel as in
JournalRanking.rankLoop. -/
def rankLoop (name year : String) (nowYear : Nat) (pages : Nat → PageOutcome) :
    Nat → Nat → Option RankResult × Nat
  | 0, _ => (none, 0)
  | fuel + 1, p =>
    match rankIter name year nowYear p (pages p) with
    | .error _ => (none, 1)
    | .ok (.found r) => (some r, 1)
    | .ok .stop => (none, 1)
    | .ok .next =>
      if 100 < p + 1 then (none, 1)
      else
        let rc := rankLoop name year nowYear pages fuel (p + 1)
        (rc.1, rc.2 + 1)

/-- ranking_app.get_scimago_ranking on an environment of fetched listing
pages. -/
def get_scimago_ranking (name year : String) (nowYear : Nat)
    (pages : Nat → PageOutcome) : Option RankResult :=
  (rankLoop name year nowYear pages 100 1).1

/-- Number of listing pages the loop fetches. -/
def fetchCount (name year : String) (nowYear : Nat) (pages : Nat → PageOutcome) : Nat :=
  (rankLoop name year nowYear pages 100 1).2

end RankingApp

/-! ## Lemmas about the max-scan fold -/

theorem le_maxParamFold (key : String) (links : List String) :
    ∀ a, a ≤ maxParamFold key a links := by
  induction links with
  | nil => intro a; simp [maxParamFold]
  | cons x xs ih =>
    intro a
    simp only [maxParamFold, List.foldl_cons]
    have h2 := ih (match paramValOf key x with
      | some v => if a < v then v else a
      | none => a)
    simp only [maxParamFold] at h2
    refine le_trans ?_ h2
    cases paramValOf key x with
    | none => simp
    | some v => dsimp only; split <;> omega

theorem paramVal_le_maxParamFold (key : String) (links : List String) :
    ∀ a l v, l ∈ links → paramValOf key l = some v → v ≤ maxParamFold key a links := by
  induction links with
  | nil => intro a l v h; simp at h
  | cons x xs ih =>
    intro a l v hmem hv
    simp only [maxParamFold, List.foldl_cons]
    rcases List.mem_cons.mp hmem with rfl | hmem2
    · have h2 := le_maxParamFold key xs (match paramValOf key l with
        | some w => if a < w then w else a
        | none => a)
      simp only [maxParamFold] at h2
      refine le_trans ?_ h2
      rw [hv]; dsimp only; split <;> omega
    · have := ih (match paramValOf key x with
        | some w => if a < w then w else a
        | none => a) l v hmem2 hv
      simpa [maxParamFold] using this

theorem maxParamFold_eq_or_mem (key : String) (links : List String) :
    ∀ a, maxParamFold key a links = a ∨
      ∃ l ∈ links, paramValOf key l = some (maxParamFold key a links) := by
  induction links with
  | nil => intro a; left; simp [maxParamFold]
  | cons x xs ih =>
    intro a
    simp only [maxParamFold, List.foldl_cons]
    rcases ih (match paramValOf key x with
      | some w => if a < w then w else a
      | none => a) with heq | ⟨l, hl, hval⟩
    · simp only [maxParamFold] at heq
      rw [heq]
      cases hx : paramValOf key x with
      | none => left; rfl
      | some v =>
        dsimp only
        by_cases hav : a < v
        · right; exact ⟨x, List.mem_cons_self x xs, by simp [hx, hav]⟩
        · left; simp [hav]
    · right
      exact ⟨l, List.mem_cons_of_mem x hl, by simpa [maxParamFold] using hval⟩

/-! ## Claim C3: the Total-Count Resolver -/

/-- Claim C3 counterexample: on a page whose links carry total_size=0 and
page=2, a total_size parameter exists and its maximum value is 0, yet
get_total_journals returns the page-based estimate 100, not that maximum;
the claim's first clause fails for zero-valued parameters. -/
theorem c3_counterexample :
    paramValOf "total_size=" "a?total_size=0" = some 0 ∧
    paramValOf "total_size=" "b?page=2" = none ∧
    JournalRanking.get_total_journals ["a?total_size=0", "b?page=2"] = some 100 ∧
    JournalRanking.get_total_journals ["a?total_size=0", "b?page=2"] ≠ some 0 := by
  decide

/-- Claim C3 (amended): both files' get_total_journals agree; when some
link carries a positive total_size value the resolver returns the maximum
total_size value across all links; when every total_size value found is 0
(in particular when none exists) it returns 50 times the maximum page
value provided some positive one exists; when every page value found is 0
as well it returns None. -/
theorem c3_total_count_resolver (links : List String) :
    (∀ l, RankingApp.get_total_journals l = JournalRanking.get_total_journals l) ∧
    ((∃ l ∈ links, ∃ v, paramValOf "total_size=" l = some v ∧ 0 < v) →
      ∃ m, 0 < m ∧ JournalRanking.get_total_journals links = some m ∧
        (∃ l ∈ links, paramValOf "total_size=" l = some m) ∧
        (∀ l ∈ links, ∀ v, paramValOf "total_size=" l = some v → v ≤ m)) ∧
    ((∀ l ∈ links, ∀ v, paramValOf "total_size=" l = some v → v = 0) →
      ((∃ l ∈ links, ∃ v, paramValOf "page=" l = some v ∧ 0 < v) →
        ∃ m, 0 < m ∧ JournalRanking.get_total_journals links = some (m * 50) ∧
          (∃ l ∈ links, paramValOf "page=" l = some m) ∧
          (∀ l ∈ links, ∀ v, paramValOf "page=" l = some v → v ≤ m)) ∧
      ((∀ l ∈ links, ∀ v, paramValOf "page=" l = some v → v = 0) →
        JournalRanking.get_total_journals links = none)) := by
  refine ⟨fun l => rfl, ?_, ?_⟩
  · rintro ⟨l, hl, v, hv, hvpos⟩
    have hle := paramVal_le_maxParamFold "total_size=" links 0 l v hl hv
    have hpos : 0 < maxParamFold "total_size=" 0 links := lt_of_lt_of_le hvpos hle
    refine ⟨maxParamFold "total_size=" 0 links, hpos, ?_, ?_, ?_⟩
    · simp [JournalRanking.get_total_journals, hpos]
    · rcases maxParamFold_eq_or_mem "total_size=" links 0 with heq | hmem
      · omega
      · exact hmem
    · intro l' hl' v' hv'
      exact paramVal_le_maxParamFold "total_size=" links 0 l' v' hl' hv'
  · intro hz
    have hM : maxParamFold "total_size=" 0 links = 0 := by
      rcases maxParamFold_eq_or_mem "total_size=" links 0 with heq | ⟨l, hl, hval⟩
      · exact heq
      · exact hz l hl _ hval
    constructor
    · rintro ⟨l, hl, v, hv, hvpos⟩
      have hle := paramVal_le_maxParamFold "page=" links 0 l v hl hv
      have hpos : 0 < maxParamFold "page=" 0 links := lt_of_lt_of_le hvpos hle
      refine ⟨maxParamFold "page=" 0 links, hpos, ?_, ?_, ?_⟩
      · simp [JournalRanking.get_total_journals, hM, hpos]
      · rcases maxParamFold_eq_or_mem "page=" links 0 with heq | hmem
        · omega
        · exact hmem
      · intro l' hl' v' hv'
        exact paramVal_le_maxParamFold "page=" links 0 l' v' hl' hv'
    · intro hzp
      have hP : maxParamFold "page=" 0 links = 0 := by
        rcases maxParamFold_eq_or_mem "page=" links 0 with heq | ⟨l, hl, hval⟩
        · exact heq
        · exact hzp l hl _ hval
      simp [JournalRanking.get_total_journals, hM, hP]

/-- Claim C3 witness: a page with total_size=1500 and page=40 in one link:
the resolver returns 1500, the maximum total_size value, taking precedence
over the page-based estimate. -/
theorem c3_total_count_resolver_witness :
    ∃ m, 0 < m ∧
      JournalRanking.get_total_journals ["x?total_size=1500&page=40"] = some m ∧
      (∃ l ∈ ["x?total_size=1500&page=40"], paramValOf "total_size=" l = some m) ∧
      (∀ l ∈ ["x?total_size=1500&page=40"], ∀ v,
        paramValOf "total_size=" l = some v → v ≤ m) :=
  (c3_total_count_resolver ["x?total_size=1500&page=40"]).2.1
    ⟨"x?total_size=1500&page=40", by decide, 1500, by decide, by decide⟩

/-! ## Claim C7: quartile marker precedence -/

/-- Claim C7: the quartile markers are tested in the fixed order q1, q2,
q3, q4; the first class present on the row decides the quartile, and a row
with none of them gets N/A. -/
theorem c7_quartile_order (row : Row) :
    ("q1" ∈ row.classes → quartileOf row = "Q1") ∧
    ("q1" ∉ row.classes → "q2" ∈ row.classes → quartileOf row = "Q2") ∧
    ("q1" ∉ row.classes → "q2" ∉ row.classes → "q3" ∈ row.classes →
      quartileOf row = "Q3") ∧
    ("q1" ∉ row.classes → "q2" ∉ row.classes → "q3" ∉ row.classes →
      "q4" ∈ row.classes → quartileOf row = "Q4") ∧
    ("q1" ∉ row.classes → "q2" ∉ row.classes → "q3" ∉ row.classes →
      "q4" ∉ row.classes → quartileOf row = "N/A") := by
  refine ⟨?_, ?_, ?_, ?_, ?_⟩
  · intro h1
    simp [quartileOf, List.find?, h1]
    decide
  · intro h1 h2
    simp [quartileOf, List.find?, h1, h2]
    decide
  · intro h1 h2 h3
    simp [quartileOf, List.find?, h1, h2, h3]
    decide
  · intro h1 h2 h3 h4
    simp [quartileOf, List.find?, h1, h2, h3, h4]
    decide
  · intro h1 h2 h3 h4
    simp [quartileOf, List.find?, h1, h2, h3, h4]

/-- Claim C7 witness: a row marked with both q2 and q3 (and no q1) yields
Q2. -/
theorem c7_quartile_order_witness :
    quartileOf ⟨some "t", ["3"], ["q2", "q3"]⟩ = "Q2" :=
  (c7_quartile_order ⟨some "t", ["3"], ["q2", "q3"]⟩).2.1 (by decide) (by decide)

/-! ## Lemmas about first-occurrence deduplication -/

theorem mem_dedupFirst (y : String) :
    ∀ (l seen : List String), y ∈ dedupFirst seen l ↔ y ∈ l ∧ y ∉ seen := by
  intro l
  induction l with
  | nil => intro seen; simp [dedupFirst]
  | cons x xs ih =>
    intro seen
    by_cases hx : x ∈ seen
    · rw [dedupFirst, if_pos hx, ih seen]
      constructor
      · rintro ⟨h1, h2⟩
        exact ⟨List.mem_cons_of_mem x h1, h2⟩
      · rintro ⟨h1, h2⟩
        rcases List.mem_cons.mp h1 with rfl | h1
        · exact absurd hx h2
        · exact ⟨h1, h2⟩
    · rw [dedupFirst, if_neg hx]
      constructor
      · intro hmem
        rcases List.mem_cons.mp hmem with rfl | hmem
        · exact ⟨List.mem_cons_self y xs, hx⟩
        · rcases (ih (x :: seen)).mp hmem with ⟨h1, h2⟩
          refine ⟨List.mem_cons_of_mem x h1, fun hshm => h2 (List.mem_cons_of_mem x hshm)⟩
      · rintro ⟨h1, h2⟩
        rcases List.mem_cons.mp h1 with rfl | h1
        · exact List.mem_cons_self y _
        · by_cases hyx : y = x
          · exact hyx ▸ List.mem_cons_self x _
          · refine List.mem_cons_of_mem x ((ih (x :: seen)).mpr ⟨h1, ?_⟩)
            intro hmem
            rcases List.mem_cons.mp hmem with rfl | hmem
            · exact hyx rfl
            · exact h2 hmem

theorem nodup_dedupFirst : ∀ (l seen : List String), (dedupFirst seen l).Nodup := by
  intro l
  induction l with
  | nil => intro seen; simp [dedupFirst]
  | cons x xs ih =>
    intro seen
    by_cases hx : x ∈ seen
    · rw [dedupFirst, if_pos hx]
      exact ih seen
    · rw [dedupFirst, if_neg hx]
      refine List.nodup_cons.mpr ⟨?_, ih (x :: seen)⟩
      intro hmem
      exact ((mem_dedupFirst x xs (x :: seen)).mp hmem).2 (List.mem_cons_self x seen)

theorem dedupFirst_congr :
    ∀ (l s s' : List String), (∀ x, x ∈ s ↔ x ∈ s') → dedupFirst s l = dedupFirst s' l := by
  intro l
  induction l with
  | nil => intro s s' _; simp [dedupFirst]
  | cons x xs ih =>
    intro s s' hss
    by_cases hx : x ∈ s
    · rw [dedupFirst, if_pos hx, dedupFirst, if_pos ((hss x).mp hx)]
      exact ih s s' hss
    · rw [dedupFirst, if_neg hx, dedupFirst, if_neg (fun h => hx ((hss x).mpr h))]
      rw [ih (x :: s) (x :: s') (fun y => by simp [hss y])]

theorem length_dedupFirst (l : List String) :
    (dedupFirst [] l).length = l.dedup.length := by
  have h1 : (dedupFirst [] l).Nodup := nodup_dedupFirst l []
  have h2 : (dedupFirst [] l).toFinset = l.toFinset := by
    ext y
    simp [List.mem_toFinset, mem_dedupFirst]
  calc (dedupFirst [] l).length = (dedupFirst [] l).toFinset.card :=
        (List.toFinset_card_of_nodup h1).symm
    _ = l.toFinset.card := by rw [h2]
    _ = l.dedup.length := List.card_toFinset l

/-! ## Lemmas about the category map construction -/

theorem buildCategoryMap_keys :
    ∀ (ls : List CatLink) (acc : List (String × String)),
      (buildCategoryMap acc ls).map Prod.fst =
        acc.map Prod.fst ++
          dedupFirst (acc.map Prod.fst) (ls.map (fun l => catIdOf l.href)) := by
  intro ls
  induction ls with
  | nil => intro acc; simp [buildCategoryMap, dedupFirst]
  | cons l ls ih =>
    intro acc
    simp only [buildCategoryMap, List.map_cons, dedupFirst]
    by_cases hmem : catIdOf l.href ∈ acc.map Prod.fst
    · have hc : (acc.map Prod.fst).contains (catIdOf l.href) = true := by
        simpa using hmem
      rw [if_pos hc, if_pos hmem]
      exact ih acc
    · have hc : ¬ (acc.map Prod.fst).contains (catIdOf l.href) = true := by
        simpa using hmem
      rw [if_neg hc, if_neg hmem, ih (acc ++ [(catIdOf l.href, l.text)])]
      rw [List.map_append]
      have hcongr : dedupFirst (acc.map Prod.fst ++ [(catIdOf l.href, l.text)].map Prod.fst)
            (ls.map (fun l => catIdOf l.href)) =
          dedupFirst (catIdOf l.href :: acc.map Prod.fst)
            (ls.map (fun l => catIdOf l.href)) := by
        refine dedupFirst_congr _ _ _ (fun y => ?_)
        simp [or_comm]
      rw [hcongr, List.append_cons]
      simp

theorem buildCategoryMap_names :
    ∀ (ls : List CatLink) (acc : List (String × String)),
      ∀ p ∈ buildCategoryMap acc ls,
        p ∈ acc ∨ (p.1 ∉ acc.map Prod.fst ∧
          ∃ l, ls.find? (fun l => decide (catIdOf l.href = p.1)) = some l ∧
            l.text = p.2) := by
  intro ls
  induction ls with
  | nil =>
    intro acc p hp
    exact Or.inl hp
  | cons l ls ih =>
    intro acc p hp
    simp only [buildCategoryMap] at hp
    by_cases hmem : catIdOf l.href ∈ acc.map Prod.fst
    · have hc : (acc.map Prod.fst).contains (catIdOf l.href) = true := by simpa using hmem
      rw [if_pos hc] at hp
      rcases ih acc p hp with hin | ⟨hnot, l', hfind, htext⟩
      · exact Or.inl hin
      · refine Or.inr ⟨hnot, l', ?_, htext⟩
        rw [List.find?_cons]
        have hne : catIdOf l.href ≠ p.1 := fun h => hnot (h ▸ hmem)
        simp [hne, hfind]
    · have hc : ¬ (acc.map Prod.fst).contains (catIdOf l.href) = true := by simpa using hmem
      rw [if_neg hc] at hp
      rcases ih (acc ++ [(catIdOf l.href, l.text)]) p hp with hin | ⟨hnot, l', hfind, htext⟩
      · rcases List.mem_append.mp hin with hin | hin
        · exact Or.inl hin
        · have hp2 : p = (catIdOf l.href, l.text) := by simpa using hin
          refine Or.inr ⟨by rw [hp2]; exact hmem, l, ?_, by rw [hp2]⟩
          rw [List.find?_cons]
          simp [hp2]
      · have hnotacc : p.1 ∉ acc.map Prod.fst := by
          intro h
          exact hnot (by simp [h])
        have hne : catIdOf l.href ≠ p.1 := by
          intro h
          exact hnot (by simp [h])
        refine Or.inr ⟨hnotacc, l', ?_, htext⟩
        rw [List.find?_cons]
        simp [hne, hfind]

/-! ## Claim C8: category deduplication -/

/-- Claim C8: the category list has pairwise-distinct ids, its ids are the
first-occurrence deduplication of the filtered links' ids in discovery
order, each entry's name is the text of the first filtered link carrying
that id, and the list length equals the number of distinct ids. -/
theorem c8_category_dedup (anchors : List CatLink) :
    ((extractCategories anchors).map Prod.fst).Nodup ∧
    (extractCategories anchors).map Prod.fst =
      dedupFirst [] ((anchors.filter (fun l =>
        isSubLC "journalrank.php?category=".toList l.href.toList)).map
        (fun l => catIdOf l.href)) ∧
    (∀ p ∈ extractCategories anchors,
      ∃ l, (anchors.filter (fun l =>
          isSubLC "journalrank.php?category=".toList l.href.toList)).find?
          (fun l => decide (catIdOf l.href = p.1)) = some l ∧ l.text = p.2) ∧
    (extractCategories anchors).length =
      ((anchors.filter (fun l =>
        isSubLC "journalrank.php?category=".toList l.href.toList)).map
        (fun l => catIdOf l.href)).dedup.length := by
  have hkeys := buildCategoryMap_keys
    (anchors.filter (fun l => isSubLC "journalrank.php?category=".toList l.href.toList)) []
  simp only [List.map_nil, List.nil_append] at hkeys
  have hkeys2 : (extractCategories anchors).map Prod.fst =
      dedupFirst [] ((anchors.filter (fun l =>
        isSubLC "journalrank.php?category=".toList l.href.toList)).map
        (fun l => catIdOf l.href)) := hkeys
  refine ⟨?_, hkeys2, ?_, ?_⟩
  · rw [hkeys2]
    exact nodup_dedupFirst _ []
  · intro p hp
    rcases buildCategoryMap_names
        (anchors.filter (fun l => isSubLC "journalrank.php?category=".toList l.href.toList))
        [] p hp with hin | ⟨_, l, hfind, htext⟩
    · simp at hin
    · exact ⟨l, hfind, htext⟩
  · have hlen : (extractCategories anchors).length =
        ((extractCategories anchors).map Prod.fst).length := (List.length_map _ _).symm
    rw [hlen, hkeys2]
    exact length_dedupFirst _

/-- Claim C8 witness: two links sharing id 1702 with differing names plus
one other id: the first-seen name wins and the list has 2 entries. -/
theorem c8_category_dedup_witness :
    (∃ l, ([CatLink.mk "journalrank.php?category=1702" "AI",
        CatLink.mk "journalrank.php?category=1702" "Artificial Intelligence",
        CatLink.mk "journalrank.php?category=2200" "Eng",
        CatLink.mk "other.html" "skip"].filter (fun l =>
        isSubLC "journalrank.php?category=".toList l.href.toList)).find?
        (fun l => decide (catIdOf l.href = "1702")) = some l ∧ l.text = "AI") ∧
    (extractCategories [CatLink.mk "journalrank.php?category=1702" "AI",
        CatLink.mk "journalrank.php?category=1702" "Artificial Intelligence",
        CatLink.mk "journalrank.php?category=2200" "Eng",
        CatLink.mk "other.html" "skip"]).length = 2 := by
  have h := c8_category_dedup [CatLink.mk "journalrank.php?category=1702" "AI",
    CatLink.mk "journalrank.php?category=1702" "Artificial Intelligence",
    CatLink.mk "journalrank.php?category=2200" "Eng",
    CatLink.mk "other.html" "skip"]
  refine ⟨h.2.2.1 ("1702", "AI") (by decide), ?_⟩
  rw [h.2.2.2]
  decide

/-! ## Lemmas about the journal_ranking pagination loop -/

theorem rankExtract_fields (catId : Nat) (nj : Option Nat) (p : Nat) (row : Row)
    (r : JournalRanking.RankResult) :
    JournalRanking.rankExtract catId nj p row = .ok r →
      row.cells.head? = some r.rank ∧ r.journal = row.atitle.getD "" ∧
      r.numberJournals = nj ∧ r.quartile = quartileOf row ∧
      r.categoryId = catId ∧ r.pageFound = p := by
  intro h
  unfold JournalRanking.rankExtract at h
  cases hc : row.cells.head? with
  | none => rw [hc] at h; exact absurd h (by simp)
  | some rankStr =>
    rw [hc] at h
    have := Except.ok.inj h
    subst this
    simp

theorem rowMatches_true {name : String} {row : Row} (h : rowMatches name row = true) :
    ∃ t, row.atitle = some t ∧ lowerSub name t = true := by
  unfold rowMatches at h
  cases ha : row.atitle with
  | none => rw [ha] at h; exact absurd h (by simp)
  | some t => rw [ha] at h; exact ⟨t, rfl, h⟩

theorem rankIter_next_iff (name : String) (catId p : Nat) (out : PageOutcome) :
    JournalRanking.rankIter name catId p out = .ok .next ↔
      ∃ pg, out = .ok pg ∧ 1 < pg.rows.length ∧
        pg.rows.find? (rowMatches name) = none := by
  cases out with
  | httpErr => simp [JournalRanking.rankIter]
  | exn => simp [JournalRanking.rankIter]
  | ok pg =>
    simp only [JournalRanking.rankIter]
    by_cases hlen : pg.rows.length ≤ 1
    · rw [if_pos hlen]
      constructor
      · intro h; exact absurd h (by simp)
      · rintro ⟨pg', hpg', hlt, _⟩
        cases PageOutcome.ok.inj hpg'
        omega
    · rw [if_neg hlen]
      cases hf : pg.rows.find? (rowMatches name) with
      | none =>
        simp only
        constructor
        · intro _; exact ⟨pg, rfl, by omega, hf⟩
        · intro _; trivial
      | some row =>
        simp only
        constructor
        · intro h
          cases he : JournalRanking.rankExtract catId
              (JournalRanking.get_total_journals pg.links) p row with
          | error e => rw [he] at h; exact absurd h (by simp [Except.map])
          | ok r => rw [he] at h; exact absurd h (by simp [Except.map])
        · rintro ⟨pg', hpg', _, hfind⟩
          cases PageOutcome.ok.inj hpg'
          rw [hf] at hfind
          exact absurd hfind (by simp)

theorem rankIter_found_iff (name : String) (catId p : Nat) (out : PageOutcome)
    (r : JournalRanking.RankResult) :
    JournalRanking.rankIter name catId p out = .ok (.found r) ↔
      ∃ pg row, out = .ok pg ∧ 1 < pg.rows.length ∧
        pg.rows.find? (rowMatches name) = some row ∧
        JournalRanking.rankExtract catId (JournalRanking.get_total_journals pg.links)
          p row = .ok r := by
  cases out with
  | httpErr => simp [JournalRanking.rankIter]
  | exn => simp [JournalRanking.rankIter]
  | ok pg =>
    simp only [JournalRanking.rankIter]
    by_cases hlen : pg.rows.length ≤ 1
    · rw [if_pos hlen]
      constructor
      · intro h; exact absurd h (by simp)
      · rintro ⟨pg', row, hpg', hlt, _, _⟩
        cases PageOutcome.ok.inj hpg'
        omega
    · rw [if_neg hlen]
      cases hf : pg.rows.find? (rowMatches name) with
      | none =>
        simp only
        constructor
        · intro h; exact absurd h (by simp)
        · rintro ⟨pg', row, hpg', _, hfind, _⟩
          cases PageOutcome.ok.inj hpg'
          rw [hf] at hfind
          exact absurd hfind (by simp)
      | some row =>
        simp only
        constructor
        · intro h
          cases he : JournalRanking.rankExtract catId
              (JournalRanking.get_total_journals pg.links) p row with
          | error e => rw [he] at h; exact absurd h (by simp [Except.map])
          | ok r0 =>
            rw [he] at h
            simp only [Except.map] at h
            have hr0 : IterRes.found r0 = IterRes.found r := Except.ok.inj h
            cases IterRes.found.inj hr0
            exact ⟨pg, row, rfl, by omega, hf, he⟩
        · rintro ⟨pg', row', hpg', _, hfind, hext⟩
          cases PageOutcome.ok.inj hpg'
          rw [hf] at hfind
          cases Option.some.inj hfind
          rw [hext]
          rfl

theorem rankLoop_count (name : String) (catId : Nat) (pages : Nat → PageOutcome) :
    ∀ fuel p, (JournalRanking.rankLoop name catId pages fuel p).2 ≤ fuel := by
  intro fuel
  induction fuel with
  | zero => intro p; simp [JournalRanking.rankLoop]
  | succ f ih =>
    intro p
    cases h : JournalRanking.rankIter name catId p (pages p) with
    | error e => simp [JournalRanking.rankLoop, h]
    | ok res =>
      cases res with
      | found r => simp [JournalRanking.rankLoop, h]
      | stop => simp [JournalRanking.rankLoop, h]
      | next =>
        by_cases hp : 100 < p + 1
        · simp [JournalRanking.rankLoop, h, hp]
        · simp only [JournalRanking.rankLoop, h, if_neg hp]
          have := ih (p + 1)
          omega

theorem rankLoop_fuel (name : String) (catId : Nat) (pages : Nat → PageOutcome) :
    ∀ f g p, p ≤ 100 → 101 - p ≤ f → 101 - p ≤ g →
      JournalRanking.rankLoop name catId pages f p =
        JournalRanking.rankLoop name catId pages g p := by
  intro f
  induction f with
  | zero => intro g p hp hf _; omega
  | succ f ih =>
    intro g p hp hf hg
    obtain ⟨g', rfl⟩ : ∃ g', g = g' + 1 := ⟨g - 1, by omega⟩
    cases h : JournalRanking.rankIter name catId p (pages p) with
    | error e => simp [JournalRanking.rankLoop, h]
    | ok res =>
      cases res with
      | found r => simp [JournalRanking.rankLoop, h]
      | stop => simp [JournalRanking.rankLoop, h]
      | next =>
        by_cases hp1 : 100 < p + 1
        · simp [JournalRanking.rankLoop, h, hp1]
        · simp only [JournalRanking.rankLoop, h, if_neg hp1]
          rw [ih g' (p + 1) (by omega) (by omega) (by omega)]

theorem rankLoop_walk (name : String) (catId : Nat) (pages : Nat → PageOutcome) :
    ∀ k a, 1 ≤ a → a + k ≤ 100 →
      (∀ q, a ≤ q → q < a + k →
        JournalRanking.rankIter name catId q (pages q) = .ok .next) →
      JournalRanking.rankLoop name catId pages (101 - a) a =
        ((JournalRanking.rankLoop name catId pages (101 - (a + k)) (a + k)).1,
         (JournalRanking.rankLoop name catId pages (101 - (a + k)) (a + k)).2 + k) := by
  intro k
  induction k with
  | zero => intro a _ _ _; simp
  | succ k ih =>
    intro a h1 h2 hnext
    have hiter : JournalRanking.rankIter name catId a (pages a) = .ok .next :=
      hnext a le_rfl (by omega)
    have hunf : 101 - a = (100 - a) + 1 := by omega
    rw [hunf]
    have hguard : ¬ 100 < a + 1 := by omega
    simp only [JournalRanking.rankLoop, hiter, if_neg hguard]
    have h100 : 100 - a = 101 - (a + 1) := by omega
    rw [h100]
    have ihres := ih (a + 1) (by omega) (by omega)
      (fun q hq1 hq2 => hnext q (by omega) (by omega))
    have harith : a + 1 + k = a + (k + 1) := by omega
    rw [harith] at ihres
    rw [ihres]
    simp [Nat.add_assoc]

theorem rankLoop_some_props (name : String) (catId : Nat) (pages : Nat → PageOutcome) :
    ∀ fuel p r, 1 ≤ p → p + fuel = 101 →
      (JournalRanking.rankLoop name catId pages fuel p).1 = some r →
      p ≤ r.pageFound ∧ r.pageFound ≤ 100 ∧
        (∃ pg row, pages r.pageFound = .ok pg ∧ 1 < pg.rows.length ∧
          pg.rows.find? (rowMatches name) = some row ∧
          JournalRanking.rankExtract catId (JournalRanking.get_total_journals pg.links)
            r.pageFound row = .ok r) ∧
        (∀ q, p ≤ q → q < r.pageFound →
          ∃ pg, pages q = .ok pg ∧ 1 < pg.rows.length ∧
            pg.rows.find? (rowMatches name) = none) := by
  intro fuel
  induction fuel with
  | zero => intro p r _ _ h3; simp [JournalRanking.rankLoop] at h3
  | succ f ih =>
    intro p r h1 h2 h3
    cases hit : JournalRanking.rankIter name catId p (pages p) with
    | error e => simp [JournalRanking.rankLoop, hit] at h3
    | ok res =>
      cases res with
      | stop => simp [JournalRanking.rankLoop, hit] at h3
      | found r0 =>
        have hr0 : r0 = r := by
          simpa [JournalRanking.rankLoop, hit] using h3
        subst hr0
        rcases (rankIter_found_iff name catId p (pages p) r0).mp hit with
          ⟨pg, row, hpg, hlen, hfind, hext⟩
        have hfields := rankExtract_fields catId
          (JournalRanking.get_total_journals pg.links) p row r0 hext
        have hpf : r0.pageFound = p := hfields.2.2.2.2.2
        refine ⟨by omega, by omega, ⟨pg, row, ?_, hlen, hfind, ?_⟩, ?_⟩
        · rw [hpf]; exact hpg
        · rw [hpf]; exact hext
        · intro q hq1 hq2
          omega
      | next =>
        by_cases hp1 : 100 < p + 1
        · simp [JournalRanking.rankLoop, hit, hp1] at h3
        · have h3' : (JournalRanking.rankLoop name catId pages f (p + 1)).1 = some r := by
            simpa [JournalRanking.rankLoop, hit, if_neg hp1] using h3
          rcases ih (p + 1) r (by omega) (by omega) h3' with ⟨hle, hle100, hex, hprev⟩
          refine ⟨by omega, hle100, hex, ?_⟩
          intro q hq1 hq2
          by_cases hqp : q = p
          · subst hqp
            rcases (rankIter_next_iff name catId q (pages q)).mp hit with ⟨pg, hpg, hlen, hfind⟩
            exact ⟨pg, hpg, hlen, hfind⟩
          · exact hprev q (by omega) hq2

/-! ## Lemmas about the ranking_app pagination loop -/

theorem RA_rankExtract_fields (year : String) (nowYear : Nat) (catName : String)
    (nj : Option Nat) (row : Row) (r' : RankingApp.RankResult) :
    RankingApp.rankExtract year nowYear catName nj row = .ok r' →
      ∃ rankStr k n, row.cells.head? = some rankStr ∧ pyInt rankStr = some k ∧
        nj = some n ∧ r'.journal = row.atitle.getD "" ∧ r'.quartile = quartileOf row ∧
        r'.categoryRank = "#" ++ rankStr ++ " of " ++ toString n := by
  intro h
  simp only [RankingApp.rankExtract] at h
  cases hc : row.cells.head? with
  | none => simp [hc] at h
  | some rankStr =>
    simp only [hc] at h
    cases hk : pyInt rankStr with
    | none => simp [hk] at h
    | some k =>
      simp only [hk] at h
      cases hn : nj with
      | none => simp [hn] at h
      | some n =>
        simp only [hn] at h
        have hinj := Except.ok.inj h
        exact ⟨rankStr, k, n, rfl, hk, rfl, by rw [← hinj], by rw [← hinj], by rw [← hinj]⟩

theorem RA_rankIter_next_iff (name year : String) (nowYear p : Nat) (out : PageOutcome) :
    RankingApp.rankIter name year nowYear p out = .ok .next ↔
      ∃ pg, out = .ok pg ∧ 1 < pg.rows.length ∧
        pg.rows.find? (rowMatches name) = none := by
  cases out with
  | httpErr => simp [RankingApp.rankIter]
  | exn => simp [RankingApp.rankIter]
  | ok pg =>
    simp only [RankingApp.rankIter]
    by_cases hlen : pg.rows.length ≤ 1
    · rw [if_pos hlen]
      constructor
      · intro h; exact absurd h (by simp)
      · rintro ⟨pg', hpg', hlt, _⟩
        cases PageOutcome.ok.inj hpg'
        omega
    · rw [if_neg hlen]
      cases hf : pg.rows.find? (rowMatches name) with
      | none =>
        simp only
        constructor
        · intro _; exact ⟨pg, rfl, by omega, hf⟩
        · intro _; trivial
      | some row =>
        simp only
        constructor
        · intro h
          cases he : RankingApp.rankExtract year nowYear (RankingApp.get_category_name pg)
              (RankingApp.get_total_journals pg.links) row with
          | error e => rw [he] at h; exact absurd h (by simp [Except.map])
          | ok r => rw [he] at h; exact absurd h (by simp [Except.map])
        · rintro ⟨pg', hpg', _, hfind⟩
          cases PageOutcome.ok.inj hpg'
          rw [hf] at hfind
          exact absurd hfind (by simp)

theorem RA_rankIter_found_iff (name year : String) (nowYear p : Nat) (out : PageOutcome)
    (r : RankingApp.RankResult) :
    RankingApp.rankIter name year nowYear p out = .ok (.found r) ↔
      ∃ pg row, out = .ok pg ∧ 1 < pg.rows.length ∧
        pg.rows.find? (rowMatches name) = some row ∧
        RankingApp.rankExtract year nowYear (RankingApp.get_category_name pg)
          (RankingApp.get_total_journals pg.links) row = .ok r := by
  cases out with
  | httpErr => simp [RankingApp.rankIter]
  | exn => simp [RankingApp.rankIter]
  | ok pg =>
    simp only [RankingApp.rankIter]
    by_cases hlen : pg.rows.length ≤ 1
    · rw [if_pos hlen]
      constructor
      · intro h; exact absurd h (by simp)
      · rintro ⟨pg', row, hpg', hlt, _, _⟩
        cases PageOutcome.ok.inj hpg'
        omega
    · rw [if_neg hlen]
      cases hf : pg.rows.find? (rowMatches name) with
      | none =>
        simp only
        constructor
        · intro h; exact absurd h (by simp)
        · rintro ⟨pg', row, hpg', _, hfind, _⟩
          cases PageOutcome.ok.inj hpg'
          rw [hf] at hfind
          exact absurd hfind (by simp)
      | some row =>
        simp only
        constructor
        · intro h
          cases he : RankingApp.rankExtract year nowYear (RankingApp.get_category_name pg)
              (RankingApp.get_total_journals pg.links) row with
          | error e => rw [he] at h; exact absurd h (by simp [Except.map])
          | ok r0 =>
            rw [he] at h
            simp only [Except.map] at h
            have hr0 : IterRes.found r0 = IterRes.found r := Except.ok.inj h
            cases IterRes.found.inj hr0
            exact ⟨pg, row, rfl, by omega, hf, he⟩
        · rintro ⟨pg', row', hpg', _, hfind, hext⟩
          cases PageOutcome.ok.inj hpg'
          rw [hf] at hfind
          cases Option.some.inj hfind
          rw [hext]
          rfl

theorem RA_rankLoop_count (name year : String) (nowYear : Nat) (pages : Nat → PageOutcome) :
    ∀ fuel p, (RankingApp.rankLoop name year nowYear pages fuel p).2 ≤ fuel := by
  intro fuel
  induction fuel with
  | zero => intro p; simp [RankingApp.rankLoop]
  | succ f ih =>
    intro p
    cases h : RankingApp.rankIter name year nowYear p (pages p) with
    | error e => simp [RankingApp.rankLoop, h]
    | ok res =>
      cases res with
      | found r => simp [RankingApp.rankLoop, h]
      | stop => simp [RankingApp.rankLoop, h]
      | next =>
        by_cases hp : 100 < p + 1
        · simp [RankingApp.rankLoop, h, hp]
        · simp only [RankingApp.rankLoop, h, if_neg hp]
          have := ih (p + 1)
          omega

theorem RA_rankLoop_walk (name year : String) (nowYear : Nat) (pages : Nat → PageOutcome) :
    ∀ k a, 1 ≤ a → a + k ≤ 100 →
      (∀ q, a ≤ q → q < a + k →
        RankingApp.rankIter name year nowYear q (pages q) = .ok .next) →
      RankingApp.rankLoop name year nowYear pages (101 - a) a =
        ((RankingApp.rankLoop name year nowYear pages (101 - (a + k)) (a + k)).1,
         (RankingApp.rankLoop name year nowYear pages (101 - (a + k)) (a + k)).2 + k) := by
  intro k
  induction k with
  | zero => intro a _ _ _; simp
  | succ k ih =>
    intro a h1 h2 hnext
    have hiter : RankingApp.rankIter name year nowYear a (pages a) = .ok .next :=
      hnext a le_rfl (by omega)
    have hunf : 101 - a = (100 - a) + 1 := by omega
    rw [hunf]
    have hguard : ¬ 100 < a + 1 := by omega
    simp only [RankingApp.rankLoop, hiter, if_neg hguard]
    have h100 : 100 - a = 101 - (a + 1) := by omega
    rw [h100]
    have ihres := ih (a + 1) (by omega) (by omega)
      (fun q hq1 hq2 => hnext q (by omega) (by omega))
    have harith : a + 1 + k = a + (k + 1) := by omega
    rw [harith] at ihres
    rw [ihres]
    simp [Nat.add_assoc]

theorem RA_rankLoop_some_props (name year : String) (nowYear : Nat)
    (pages : Nat → PageOutcome) :
    ∀ fuel p r', 1 ≤ p → p + fuel = 101 →
      (RankingApp.rankLoop name year nowYear pages fuel p).1 = some r' →
      ∃ pf, p ≤ pf ∧ pf ≤ 100 ∧
        (∃ pg row, pages pf = .ok pg ∧ 1 < pg.rows.length ∧
          pg.rows.find? (rowMatches name) = some row ∧
          RankingApp.rankExtract year nowYear (RankingApp.get_category_name pg)
            (RankingApp.get_total_journals pg.links) row = .ok r') ∧
        (∀ q, p ≤ q → q < pf →
          ∃ pg, pages q = .ok pg ∧ 1 < pg.rows.length ∧
            pg.rows.find? (rowMatches name) = none) := by
  intro fuel
  induction fuel with
  | zero => intro p r' _ _ h3; simp [RankingApp.rankLoop] at h3
  | succ f ih =>
    intro p r' h1 h2 h3
    cases hit : RankingApp.rankIter name year nowYear p (pages p) with
    | error e => simp [RankingApp.rankLoop, hit] at h3
    | ok res =>
      cases res with
      | stop => simp [RankingApp.rankLoop, hit] at h3
      | found r0 =>
        have hr0 : r0 = r' := by simpa [RankingApp.rankLoop, hit] using h3
        subst hr0
        rcases (RA_rankIter_found_iff name year nowYear p (pages p) r0).mp hit with
          ⟨pg, row, hpg, hlen, hfind, hext⟩
        exact ⟨p, le_rfl, by omega, ⟨pg, row, hpg, hlen, hfind, hext⟩,
          fun q hq1 hq2 => absurd (lt_of_le_of_lt hq1 hq2) (lt_irrefl p)⟩
      | next =>
        by_cases hp1 : 100 < p + 1
        · simp [RankingApp.rankLoop, hit, hp1] at h3
        · have h3' : (RankingApp.rankLoop name year nowYear pages f (p + 1)).1 =
              some r' := by
            simpa [RankingApp.rankLoop, hit, if_neg hp1] using h3
          rcases ih (p + 1) r' (by omega) (by omega) h3' with
            ⟨pf, hle, hle100, hex, hprev⟩
          refine ⟨pf, by omega, hle100, hex, ?_⟩
          intro q hq1 hq2
          by_cases hqp : q = p
          · subst hqp
            rcases (RA_rankIter_next_iff name year nowYear q (pages q)).mp hit with
              ⟨pg, hpg, hlen, hfind⟩
            exact ⟨pg, hpg, hlen, hfind⟩
          · exact hprev q (by omega) hq2

theorem app_cli_parallel (name year : String) (nowYear catId : Nat)
    (pages : Nat → PageOutcome) :
    ∀ fuel p r', (RankingApp.rankLoop name year nowYear pages fuel p).1 = some r' →
      ∃ r, (JournalRanking.rankLoop name catId pages fuel p).1 = some r ∧
        r'.journal = r.journal ∧ r'.quartile = r.quartile ∧
        ∃ n, r.numberJournals = some n ∧
          r'.categoryRank = "#" ++ r.rank ++ " of " ++ toString n ∧
          ∃ k, pyInt r.rank = some k := by
  intro fuel
  induction fuel with
  | zero => intro p r' h; simp [RankingApp.rankLoop] at h
  | succ f ih =>
    intro p r' h
    cases hit : RankingApp.rankIter name year nowYear p (pages p) with
    | error e => simp [RankingApp.rankLoop, hit] at h
    | ok res =>
      cases res with
      | stop => simp [RankingApp.rankLoop, hit] at h
      | found r0 =>
        have hr0 : r0 = r' := by simpa [RankingApp.rankLoop, hit] using h
        subst hr0
        rcases (RA_rankIter_found_iff name year nowYear p (pages p) r0).mp hit with
          ⟨pg, row, hpg, hlen, hfind, hext⟩
        rcases RA_rankExtract_fields year nowYear (RankingApp.get_category_name pg)
          (RankingApp.get_total_journals pg.links) row r0 hext with
          ⟨rankStr, k, n, hcell, hk, hnj, hj, hq, hcr⟩
        have hextc : JournalRanking.rankExtract catId
            (JournalRanking.get_total_journals pg.links) p row =
            .ok ⟨row.atitle.getD "", rankStr, JournalRanking.get_total_journals pg.links,
              quartileOf row, catId, p⟩ := by
          unfold JournalRanking.rankExtract
          rw [hcell]
        have hitc : JournalRanking.rankIter name catId p (pages p) =
            .ok (.found ⟨row.atitle.getD "", rankStr,
              JournalRanking.get_total_journals pg.links, quartileOf row, catId, p⟩) :=
          (rankIter_found_iff name catId p (pages p) _).mpr ⟨pg, row, hpg, hlen, hfind, hextc⟩
        refine ⟨⟨row.atitle.getD "", rankStr, JournalRanking.get_total_journals pg.links,
          quartileOf row, catId, p⟩, ?_, hj, hq, n, ?_, ?_, k, hk⟩
        · simp [JournalRanking.rankLoop, hitc]
        · exact hnj
        · exact hcr
      | next =>
        by_cases hp1 : 100 < p + 1
        · simp [RankingApp.rankLoop, hit, hp1] at h
        · have h' : (RankingApp.rankLoop name year nowYear pages f (p + 1)).1 = some r' := by
            simpa [RankingApp.rankLoop, hit, if_neg hp1] using h
          rcases ih (p + 1) r' h' with ⟨r, hcli, hrest⟩
          rcases (RA_rankIter_next_iff name year nowYear p (pages p)).mp hit with
            ⟨pg, hpg, hlen, hfind⟩
          have hitc : JournalRanking.rankIter name catId p (pages p) = .ok .next :=
            (rankIter_next_iff name catId p (pages p)).mpr ⟨pg, hpg, hlen, hfind⟩
          refine ⟨r, ?_, hrest⟩
          simp [JournalRanking.rankLoop, hitc, if_neg hp1, hcli]

/-! ## Claim C2: pagination termination -/

/-- Claim C2: the pagination loop's value is independent of the fuel
bound, both loops fetch at most 100 pages on any environment, and when
every page before p continues normally and page p parses to at most a
header row, either loop run from page 1 returns not-found having fetched
exactly p pages. -/
theorem c2_pagination_termination :
    (∀ name catId pages f g p, p ≤ 100 → 101 - p ≤ f → 101 - p ≤ g →
      JournalRanking.rankLoop name catId pages f p =
        JournalRanking.rankLoop name catId pages g p) ∧
    (∀ name catId pages, JournalRanking.fetchCount name catId pages ≤ 100) ∧
    (∀ name year nowYear pages, RankingApp.fetchCount name year nowYear pages ≤ 100) ∧
    (∀ name catId pages p pg, 1 ≤ p → p ≤ 100 →
      (∀ q, 1 ≤ q → q < p → JournalRanking.rankIter name catId q (pages q) = .ok .next) →
      pages p = .ok pg → pg.rows.length ≤ 1 →
      JournalRanking.rankLoop name catId pages 100 1 = (none, p)) ∧
    (∀ name year nowYear pages p pg, 1 ≤ p → p ≤ 100 →
      (∀ q, 1 ≤ q → q < p →
        RankingApp.rankIter name year nowYear q (pages q) = .ok .next) →
      pages p = .ok pg → pg.rows.length ≤ 1 →
      RankingApp.rankLoop name year nowYear pages 100 1 = (none, p)) := by
  refine ⟨?_, ?_, ?_, ?_, ?_⟩
  · intro name catId pages f g p hp hf hg
    exact rankLoop_fuel name catId pages f g p hp hf hg
  · intro name catId pages
    exact rankLoop_count name catId pages 100 1
  · intro name year nowYear pages
    exact RA_rankLoop_count name year nowYear pages 100 1
  · intro name catId pages p pg h1 h2 hprev hpg hrows
    obtain ⟨k, rfl⟩ : ∃ k, p = 1 + k := ⟨p - 1, by omega⟩
    have hw := rankLoop_walk name catId pages k 1 le_rfl (by omega)
      (fun q hq1 hq2 => hprev q hq1 (by omega))
    have hstop : JournalRanking.rankIter name catId (1 + k) (pages (1 + k)) = .ok .stop := by
      rw [hpg]
      simp [JournalRanking.rankIter, hrows]
    have hunf : 101 - (1 + k) = (100 - (1 + k)) + 1 := by omega
    have hloopstop : JournalRanking.rankLoop name catId pages (101 - (1 + k)) (1 + k) =
        (none, 1) := by
      rw [hunf]
      simp [JournalRanking.rankLoop, hstop]
    have h101 : (101 : Nat) - 1 = 100 := by omega
    rw [h101] at hw
    rw [hw, hloopstop]
  · intro name year nowYear pages p pg h1 h2 hprev hpg hrows
    obtain ⟨k, rfl⟩ : ∃ k, p = 1 + k := ⟨p - 1, by omega⟩
    have hw := RA_rankLoop_walk name year nowYear pages k 1 le_rfl (by omega)
      (fun q hq1 hq2 => hprev q hq1 (by omega))
    have hstop : RankingApp.rankIter name year nowYear (1 + k) (pages (1 + k)) =
        .ok .stop := by
      rw [hpg]
      simp [RankingApp.rankIter, hrows]
    have hunf : 101 - (1 + k) = (100 - (1 + k)) + 1 := by omega
    have hloopstop : RankingApp.rankLoop name year nowYear pages (101 - (1 + k)) (1 + k) =
        (none, 1) := by
      rw [hunf]
      simp [RankingApp.rankLoop, hstop]
    have h101 : (101 : Nat) - 1 = 100 := by omega
    rw [h101] at hw
    rw [hw, hloopstop]

/-- Claim C2 witness: a listing with three data pages holding no match and
an empty fourth page: the loop returns not-found after fetching exactly 4
pages. -/
theorem c2_pagination_termination_witness :
    JournalRanking.rankLoop "nomatch" 7
      (fun p => if p ≤ 3 then
        PageOutcome.ok ⟨some "T", ["l?page=3"],
          [⟨none, [], []⟩, ⟨some "Some Journal", ["5"], ["q1"]⟩]⟩
      else PageOutcome.ok ⟨some "T", [], []⟩) 100 1 = (none, 4) :=
  c2_pagination_termination.2.2.2.1 "nomatch" 7
    (fun p => if p ≤ 3 then
      PageOutcome.ok ⟨some "T", ["l?page=3"],
        [⟨none, [], []⟩, ⟨some "Some Journal", ["5"], ["q1"]⟩]⟩
    else PageOutcome.ok ⟨some "T", [], []⟩) 4 ⟨some "T", [], []⟩
    (by omega) (by omega)
    (by intro q h1 h2; interval_cases q <;> rfl)
    rfl (by decide)

/-! ## Claim C6: the exception boundary -/

/-- Claim C6: every raised error of the category resolvers' bodies is
converted to a None result by the except boundary, and a raise in any
reached iteration of either pagination loop makes the operation return
None rather than propagate. -/
theorem c6_exception_boundary :
    (∀ env e, JournalRanking.get_journal_categoriesRaw env = .error e →
      JournalRanking.get_journal_categories env = none) ∧
    (∀ name env e, RankingApp.get_journal_categoriesRaw name env = .error e →
      RankingApp.get_journal_categories name env = none) ∧
    (∀ name catId pages p e, 1 ≤ p → p ≤ 100 →
      (∀ q, 1 ≤ q → q < p → JournalRanking.rankIter name catId q (pages q) = .ok .next) →
      JournalRanking.rankIter name catId p (pages p) = .error e →
      JournalRanking.get_scimago_ranking name catId pages = none) ∧
    (∀ name year nowYear pages p e, 1 ≤ p → p ≤ 100 →
      (∀ q, 1 ≤ q → q < p →
        RankingApp.rankIter name year nowYear q (pages q) = .ok .next) →
      RankingApp.rankIter name year nowYear p (pages p) = .error e →
      RankingApp.get_scimago_ranking name year nowYear pages = none) := by
  refine ⟨?_, ?_, ?_, ?_⟩
  · intro env e h
    unfold JournalRanking.get_journal_categories
    rw [h]
  · intro name env e h
    unfold RankingApp.get_journal_categories
    rw [h]
  · intro name catId pages p e h1 h2 hprev herr
    obtain ⟨k, rfl⟩ : ∃ k, p = 1 + k := ⟨p - 1, by omega⟩
    have hw := rankLoop_walk name catId pages k 1 le_rfl (by omega)
      (fun q hq1 hq2 => hprev q hq1 (by omega))
    have hunf : 101 - (1 + k) = (100 - (1 + k)) + 1 := by omega
    have hloope : JournalRanking.rankLoop name catId pages (101 - (1 + k)) (1 + k) =
        (none, 1) := by
      rw [hunf]
      simp [JournalRanking.rankLoop, herr]
    have h101 : (101 : Nat) - 1 = 100 := by omega
    rw [h101] at hw
    unfold JournalRanking.get_scimago_ranking
    rw [hw, hloope]
  · intro name year nowYear pages p e h1 h2 hprev herr
    obtain ⟨k, rfl⟩ : ∃ k, p = 1 + k := ⟨p - 1, by omega⟩
    have hw := RA_rankLoop_walk name year nowYear pages k 1 le_rfl (by omega)
      (fun q hq1 hq2 => hprev q hq1 (by omega))
    have hunf : 101 - (1 + k) = (100 - (1 + k)) + 1 := by omega
    have hloope : RankingApp.rankLoop name year nowYear pages (101 - (1 + k)) (1 + k) =
        (none, 1) := by
      rw [hunf]
      simp [RankingApp.rankLoop, herr]
    have h101 : (101 : Nat) - 1 = 100 := by omega
    rw [h101] at hw
    unfold RankingApp.get_scimago_ranking
    rw [hw, hloope]

/-- Claim C6 witness: a raising search fetch, a missing results container
on the interactive form's page, and a raising first listing fetch all
come back as None. -/
theorem c6_exception_boundary_witness :
    JournalRanking.get_journal_categories ⟨.exn, .ok []⟩ = none ∧
    RankingApp.get_journal_categories "x" ⟨.ok [], .ok []⟩ = none ∧
    JournalRanking.get_scimago_ranking "x" 1 (fun _ => .exn) = none ∧
    RankingApp.get_scimago_ranking "x" "" 0 (fun _ => .exn) = none :=
  ⟨c6_exception_boundary.1 ⟨.exn, .ok []⟩ "search fetch or parse raised" rfl,
   c6_exception_boundary.2.1 "x" ⟨.ok [], .ok []⟩ "IndexError: list index out of range" rfl,
   c6_exception_boundary.2.2.1 "x" 1 (fun _ => .exn) 1 "fetch or parse raised"
     le_rfl (by omega)
     (by intro q hq1 hq2; exact absurd (lt_of_le_of_lt hq1 hq2) (lt_irrefl 1)) rfl,
   c6_exception_boundary.2.2.2 "x" "" 0 (fun _ => .exn) 1 "fetch or parse raised"
     le_rfl (by omega)
     (by intro q hq1 hq2; exact absurd (lt_of_le_of_lt hq1 hq2) (lt_irrefl 1)) rfl⟩

/-! ## Claim C10: the returned record comes from the first matching row -/

/-- Claim C10: whenever get_scimago_ranking returns a record, the query is
a case-insensitive substring of the record's journal title and the record
is extracted from the first matching row (in document order) of the page
it was found on, every earlier visited page being a parsed data page with
no matching row.  For the CLI the found page is the record's own pageFound
field; the interactive form's record stores no page number, so its found
page is existentially quantified. -/
theorem c10_first_match_record :
    (∀ name catId pages r,
      JournalRanking.get_scimago_ranking name catId pages = some r →
      lowerSub name r.journal = true ∧ 1 ≤ r.pageFound ∧ r.pageFound ≤ 100 ∧
      (∃ pg row, pages r.pageFound = .ok pg ∧ 1 < pg.rows.length ∧
        pg.rows.find? (rowMatches name) = some row ∧
        JournalRanking.rankExtract catId (JournalRanking.get_total_journals pg.links)
          r.pageFound row = .ok r) ∧
      (∀ q, 1 ≤ q → q < r.pageFound →
        ∃ pg, pages q = .ok pg ∧ 1 < pg.rows.length ∧
          pg.rows.find? (rowMatches name) = none)) ∧
    (∀ name year nowYear pages r',
      RankingApp.get_scimago_ranking name year nowYear pages = some r' →
      lowerSub name r'.journal = true ∧
      ∃ pf, 1 ≤ pf ∧ pf ≤ 100 ∧
        (∃ pg row, pages pf = .ok pg ∧ 1 < pg.rows.length ∧
          pg.rows.find? (rowMatches name) = some row ∧
          RankingApp.rankExtract year nowYear (RankingApp.get_category_name pg)
            (RankingApp.get_total_journals pg.links) row = .ok r') ∧
        (∀ q, 1 ≤ q → q < pf →
          ∃ pg, pages q = .ok pg ∧ 1 < pg.rows.length ∧
            pg.rows.find? (rowMatches name) = none)) := by
  have hmain : ∀ (name : String) (catId : Nat) (pages : Nat → PageOutcome)
      (r : JournalRanking.RankResult),
      JournalRanking.get_scimago_ranking name catId pages = some r →
      lowerSub name r.journal = true ∧ 1 ≤ r.pageFound ∧ r.pageFound ≤ 100 ∧
      (∃ pg row, pages r.pageFound = .ok pg ∧ 1 < pg.rows.length ∧
        pg.rows.find? (rowMatches name) = some row ∧
        JournalRanking.rankExtract catId (JournalRanking.get_total_journals pg.links)
          r.pageFound row = .ok r) ∧
      (∀ q, 1 ≤ q → q < r.pageFound →
        ∃ pg, pages q = .ok pg ∧ 1 < pg.rows.length ∧
          pg.rows.find? (rowMatches name) = none) := by
    intro name catId pages r h
    have hprops := rankLoop_some_props name catId pages 100 1 r le_rfl (by omega) h
    rcases hprops with ⟨h1, h2, ⟨pg, row, hpg, hlen, hfind, hext⟩, hprev⟩
    have hfields := rankExtract_fields catId
      (JournalRanking.get_total_journals pg.links) r.pageFound row r hext
    have hmatch : rowMatches name row = true := List.find?_some hfind
    rcases rowMatches_true hmatch with ⟨t, hat, hsub⟩
    have hj : r.journal = t := by
      rw [hfields.2.1, hat]
      rfl
    exact ⟨by rw [hj]; exact hsub, h1, h2, ⟨pg, row, hpg, hlen, hfind, hext⟩, hprev⟩
  refine ⟨hmain, ?_⟩
  intro name year nowYear pages r' h
  rcases RA_rankLoop_some_props name year nowYear pages 100 1 r' le_rfl (by omega) h with
    ⟨pf, h1, h2, ⟨pg, row, hpg, hlen, hfind, hext⟩, hprev⟩
  rcases RA_rankExtract_fields year nowYear (RankingApp.get_category_name pg)
    (RankingApp.get_total_journals pg.links) row r' hext with
    ⟨rankStr, k, n, hcell, hk, hnj, hj, hq, hcr⟩
  have hmatch : rowMatches name row = true := List.find?_some hfind
  rcases rowMatches_true hmatch with ⟨t, hat, hsub⟩
  have hjt : r'.journal = t := by
    rw [hj, hat]
    rfl
  exact ⟨by rw [hjt]; exact hsub, pf, h1, h2,
    ⟨pg, row, hpg, hlen, hfind, hext⟩, hprev⟩

/-- Claim C10 witness: an environment whose first page has a header row
and one matching row: the CLI's returned record is extracted from that row
on page 1 and contains the query as substring of its title, and the
interactive form's returned record is extracted from the same first
matching row of a found page. -/
theorem c10_first_match_record_witness :
    (lowerSub "acta" "Acta One" = true ∧ 1 ≤ 1 ∧ 1 ≤ 100 ∧
    (∃ pg row, (fun p => if p = 1 then
        PageOutcome.ok ⟨none, ["t?total_size=30"],
          [⟨none, [], []⟩, ⟨some "Acta One", ["3"], ["q2"]⟩]⟩
      else PageOutcome.ok ⟨none, [], []⟩) 1 = .ok pg ∧ 1 < pg.rows.length ∧
      pg.rows.find? (rowMatches "acta") = some row ∧
      JournalRanking.rankExtract 5 (JournalRanking.get_total_journals pg.links)
        1 row = .ok ⟨"Acta One", "3", some 30, "Q2", 5, 1⟩) ∧
    (∀ q, 1 ≤ q → q < 1 →
      ∃ pg, (fun p => if p = 1 then
          PageOutcome.ok ⟨none, ["t?total_size=30"],
            [⟨none, [], []⟩, ⟨some "Acta One", ["3"], ["q2"]⟩]⟩
        else PageOutcome.ok ⟨none, [], []⟩) q = .ok pg ∧ 1 < pg.rows.length ∧
        pg.rows.find? (rowMatches "acta") = none)) ∧
    (lowerSub "acta" "Acta One" = true ∧
    ∃ pf, 1 ≤ pf ∧ pf ≤ 100 ∧
      (∃ pg row, (fun p => if p = 1 then
          PageOutcome.ok ⟨none, ["t?total_size=30"],
            [⟨none, [], []⟩, ⟨some "Acta One", ["3"], ["q2"]⟩]⟩
        else PageOutcome.ok ⟨none, [], []⟩) pf = .ok pg ∧ 1 < pg.rows.length ∧
        pg.rows.find? (rowMatches "acta") = some row ∧
        RankingApp.rankExtract "" 2030 (RankingApp.get_category_name pg)
          (RankingApp.get_total_journals pg.links) row =
          .ok ⟨"Acta One", "", "#3 of 30",
            100 * ((3 : Int) : Rat) / ((30 : Nat) : Rat), "Q2", "2030"⟩) ∧
      (∀ q, 1 ≤ q → q < pf →
        ∃ pg, (fun p => if p = 1 then
            PageOutcome.ok ⟨none, ["t?total_size=30"],
              [⟨none, [], []⟩, ⟨some "Acta One", ["3"], ["q2"]⟩]⟩
          else PageOutcome.ok ⟨none, [], []⟩) q = .ok pg ∧ 1 < pg.rows.length ∧
          pg.rows.find? (rowMatches "acta") = none)) :=
  ⟨c10_first_match_record.1 "acta" 5
    (fun p => if p = 1 then
      PageOutcome.ok ⟨none, ["t?total_size=30"],
        [⟨none, [], []⟩, ⟨some "Acta One", ["3"], ["q2"]⟩]⟩
    else PageOutcome.ok ⟨none, [], []⟩)
    ⟨"Acta One", "3", some 30, "Q2", 5, 1⟩ (by decide),
   c10_first_match_record.2 "acta" "" 2030
    (fun p => if p = 1 then
      PageOutcome.ok ⟨none, ["t?total_size=30"],
        [⟨none, [], []⟩, ⟨some "Acta One", ["3"], ["q2"]⟩]⟩
    else PageOutcome.ok ⟨none, [], []⟩)
    ⟨"Acta One", "", "#3 of 30",
      100 * ((3 : Int) : Rat) / ((30 : Nat) : Rat), "Q2", "2030"⟩ rfl⟩

/-! ## Claim C9: shared retrieval logic of the two entry points -/

/-- Claim C9 counterexample: on the same fetched search page the two entry
points select different candidates: with no exact title match the CLI
keeps the first anchor while the form keeps the last; so the claim that
both select the same journal candidate fails. -/
theorem c9_counterexample :
    (JournalRanking.get_journal_categories
      ⟨.ok [⟨[⟨some "u1", some "Annals of Things"⟩, ⟨some "u2", some "Fancy Journal"⟩]⟩],
       .ok []⟩).map (fun p => p.journal) = some "Annals of Things" ∧
    (RankingApp.get_journal_categories "nothing like these"
      ⟨.ok [⟨[⟨some "u1", some "Annals of Things"⟩, ⟨some "u2", some "Fancy Journal"⟩]⟩],
       .ok []⟩).map Prod.fst = some "Fancy Journal" ∧
    "Annals of Things" ≠ "Fancy Journal" := by
  decide

/-- Claim C9 (amended): the pagination and extraction logic is shared:
for the same query and the same fetched listing pages, whenever the
interactive form's get_scimago_ranking returns a record, the CLI's returns
a record for the same row, with the same journal title, the same quartile,
and a rank string and total count that render the form's rank text; the
candidate selection from the search results differs between the two entry
points. -/
theorem c9_shared_retrieval_logic (name year : String) (nowYear catId : Nat)
    (pages : Nat → PageOutcome) (r' : RankingApp.RankResult)
    (h : RankingApp.get_scimago_ranking name year nowYear pages = some r') :
    ∃ r, JournalRanking.get_scimago_ranking name catId pages = some r ∧
      r'.journal = r.journal ∧ r'.quartile = r.quartile ∧
      ∃ n, r.numberJournals = some n ∧
        r'.categoryRank = "#" ++ r.rank ++ " of " ++ toString n ∧
        ∃ k, pyInt r.rank = some k :=
  app_cli_parallel name year nowYear catId pages 100 1 r' h

/-- Claim C9 witness: a concrete listing where the form finds the journal
on page 1: the CLI returns the matching record with the same title,
quartile, rank and total. -/
theorem c9_shared_retrieval_logic_witness :
    ∃ r, JournalRanking.get_scimago_ranking "alpha" 9
        (fun _ => PageOutcome.ok ⟨none, ["x?total_size=60"],
          [⟨none, [], []⟩, ⟨some "Alpha Journal", ["1"], ["q1"]⟩]⟩) = some r ∧
      "Alpha Journal" = r.journal ∧ "Q1" = r.quartile ∧
      ∃ n, r.numberJournals = some n ∧
        "#1 of 60" = "#" ++ r.rank ++ " of " ++ toString n ∧
        ∃ k, pyInt r.rank = some k :=
  c9_shared_retrieval_logic "alpha" "" 2025 9
    (fun _ => PageOutcome.ok ⟨none, ["x?total_size=60"],
      [⟨none, [], []⟩, ⟨some "Alpha Journal", ["1"], ["q1"]⟩]⟩)
    ⟨"Alpha Journal", "", "#1 of 60", 100 * ((1 : Int) : Rat) / ((60 : Nat) : Rat),
     "Q1", "2025"⟩ rfl

/-! ## Claim C4: behavior on an unparsable rank cell -/

/-- Claim C4 evaluation: on a page whose first matching row has the
non-integer rank text 1,234 and whose next row also matches with the
parsable rank 7, the interactive form's loop aborts entirely and returns
None instead of continuing with the remaining rows, while the CLI's loop
does not fail extraction at all: it returns the record of the first
matching row with the raw unparsed string, which the CLI main block's
int() call cannot consume. -/
theorem c4_unparsable_rank_behavior :
    pyInt "1,234" = none ∧
    pyInt "7" = some 7 ∧
    RankingApp.get_scimago_ranking "journal of tests" "" 2025
      (fun p => if p = 1 then
        PageOutcome.ok ⟨none, ["l?total_size=90"],
          [⟨none, [], []⟩, ⟨some "Journal of Tests", ["1,234"], ["q2"]⟩,
           ⟨some "Journal of Tests Part B", ["7"], ["q1"]⟩]⟩
      else PageOutcome.ok ⟨none, [], []⟩) = none ∧
    JournalRanking.get_scimago_ranking "journal of tests" 3
      (fun p => if p = 1 then
        PageOutcome.ok ⟨none, ["l?total_size=90"],
          [⟨none, [], []⟩, ⟨some "Journal of Tests", ["1,234"], ["q2"]⟩,
           ⟨some "Journal of Tests Part B", ["7"], ["q1"]⟩]⟩
      else PageOutcome.ok ⟨none, [], []⟩) =
      some ⟨"Journal of Tests", "1,234", some 90, "Q2", 3, 1⟩ ∧
    JournalRanking.mainPercentile ⟨"Journal of Tests", "1,234", some 90, "Q2", 3, 1⟩ =
      .error "ValueError: invalid literal for int" := by
  refine ⟨by decide, by decide, by decide, by decide, rfl⟩

/-! ## Claim C5: behavior when the total count is unknown -/

/-- Claim C5 evaluation: on a page with no total_size or page links, the
total resolves to None; the CLI's get_scimago_ranking still returns the
record with rank and quartile but its main block's percentile computation
raises a TypeError instead of skipping it, and the interactive form's
get_scimago_ranking loses the whole record: the division by None raises
inside the loop and the handler returns None. -/
theorem c5_unknown_total_behavior :
    JournalRanking.get_total_journals [] = none ∧
    JournalRanking.get_scimago_ranking "acta beta" 4
      (fun p => if p = 1 then
        PageOutcome.ok ⟨none, [], [⟨none, [], []⟩, ⟨some "Acta Beta", ["12"], ["q3"]⟩]⟩
      else PageOutcome.ok ⟨none, [], []⟩) =
      some ⟨"Acta Beta", "12", none, "Q3", 4, 1⟩ ∧
    RankingApp.get_scimago_ranking "acta beta" "" 2025
      (fun p => if p = 1 then
        PageOutcome.ok ⟨none, [], [⟨none, [], []⟩, ⟨some "Acta Beta", ["12"], ["q3"]⟩]⟩
      else PageOutcome.ok ⟨none, [], []⟩) = none ∧
    pyInt "12" = some 12 ∧
    JournalRanking.mainPercentile ⟨"Acta Beta", "12", none, "Q3", 4, 1⟩ =
      .error "TypeError: unsupported operand with NoneType" := by
  refine ⟨by decide, by decide, by decide, by decide, rfl⟩

/-! ## Claim C1: candidate selection of the category resolvers -/

/-- Claim C1 counterexample: with candidates Alpha then Beta and the query
Gamma matching neither, the interactive form's resolver proceeds with the
last candidate Beta, not the first candidate Alpha the claim requires. -/
theorem c1_counterexample :
    (RankingApp.get_journal_categories "Gamma"
      ⟨.ok [⟨[⟨some "hA", some "Alpha"⟩, ⟨some "hB", some "Beta"⟩]⟩], .ok []⟩).map
      Prod.fst = some "Beta" ∧
    "Beta" ≠ "Alpha" := by
  decide

/-- Claim C1 (amended): the CLI resolver always proceeds with the first
candidate of the first results container, regardless of the query; the
interactive form's resolver selects the first candidate whose title
case-insensitively equals the query, and when no candidate's title equals
the query it selects the last candidate, not the first. -/
theorem c1_selection_policy :
    (∀ (env : CatEnv) divs d a h t plinks,
      env.search = .ok divs → divs.head? = some d → d.anchors.head? = some a →
      a.href = some h → h ≠ "" → a.jrnlname = some t → env.profile = .ok plinks →
      ∃ prof, JournalRanking.get_journal_categories env = some prof ∧
        prof.journal = t) ∧
    (∀ (name : String) (anchors : List SearchAnchor) (a : SearchAnchor),
      anchors.find? (fun x => decide (x.jrnlname.map lowerStr =
        some (lowerStr name))) = some a →
      ∀ h t, a.href = some h → a.jrnlname = some t →
      (∀ x ∈ anchors, x.href.isSome ∧ x.jrnlname.isSome) →
      RankingApp.selectCandidate name anchors = .ok (some (h, t))) ∧
    (∀ (name : String) (anchors : List SearchAnchor),
      (∀ x ∈ anchors, x.href.isSome ∧ x.jrnlname.isSome) →
      (∀ x ∈ anchors, ∀ t, x.jrnlname = some t → lowerStr t ≠ lowerStr name) →
      ∀ last, anchors.getLast? = some last →
      ∀ h t, last.href = some h → last.jrnlname = some t →
      RankingApp.selectCandidate name anchors = .ok (some (h, t))) := by
  refine ⟨?_, ?_, ?_⟩
  · intro env divs d a h t plinks hs hd ha hh hne ht hp
    refine ⟨⟨t, extractCategories plinks,
      if h.startsWith "http" then h else "https://www.scimagojr.com/" ++ h⟩, ?_, rfl⟩
    unfold JournalRanking.get_journal_categories JournalRanking.get_journal_categoriesRaw
    simp only [hs, hd, ha, hh, ht, hp, if_neg hne]
  · intro name anchors
    induction anchors with
    | nil => intro a hfind; simp at hfind
    | cons x rest ih =>
      intro a hfind h t hh ht hwf
      obtain ⟨hx1, hx2⟩ := hwf x (List.mem_cons_self x rest)
      obtain ⟨h0, hh0⟩ := Option.isSome_iff_exists.mp hx1
      obtain ⟨t0, ht0⟩ := Option.isSome_iff_exists.mp hx2
      by_cases hpred : x.jrnlname.map lowerStr = some (lowerStr name)
      · rw [List.find?_cons_of_pos _ (by simpa using hpred)] at hfind
        cases Option.some.inj hfind
        rw [ht0] at hpred
        have heq : lowerStr t0 = lowerStr name := by
          simpa using hpred
        rw [hh0] at hh
        rw [ht0] at ht
        cases Option.some.inj hh
        cases Option.some.inj ht
        simp only [RankingApp.selectCandidate, hh0, ht0, if_pos heq]
      · rw [List.find?_cons_of_neg _ (by simpa using hpred)] at hfind
        have hne : lowerStr t0 ≠ lowerStr name := by
          rw [ht0] at hpred
          simpa using hpred
        cases rest with
        | nil => simp at hfind
        | cons b bs =>
          simp only [RankingApp.selectCandidate, hh0, ht0, if_neg hne]
          exact ih a hfind h t hh ht
            (fun y hy => hwf y (List.mem_cons_of_mem x hy))
  · intro name anchors
    induction anchors with
    | nil => intro _ _ last hlast; simp at hlast
    | cons x rest ih =>
      intro hwf hnm last hlast h t hh ht
      obtain ⟨hx1, hx2⟩ := hwf x (List.mem_cons_self x rest)
      obtain ⟨h0, hh0⟩ := Option.isSome_iff_exists.mp hx1
      obtain ⟨t0, ht0⟩ := Option.isSome_iff_exists.mp hx2
      have hne : lowerStr t0 ≠ lowerStr name := hnm x (List.mem_cons_self x rest) t0 ht0
      cases rest with
      | nil =>
        have hlx : x = last := by simpa using hlast
        subst hlx
        rw [hh0] at hh
        rw [ht0] at ht
        cases Option.some.inj hh
        cases Option.some.inj ht
        simp only [RankingApp.selectCandidate, hh0, ht0, if_neg hne]
      | cons b bs =>
        have hlast' : (b :: bs).getLast? = some last := by
          rw [← List.getLast?_cons_cons]
          exact hlast
        simp only [RankingApp.selectCandidate, hh0, ht0, if_neg hne]
        exact ih (fun y hy => hwf y (List.mem_cons_of_mem x hy))
          (fun y hy t' => hnm y (List.mem_cons_of_mem x hy) t') last hlast' h t hh ht

/-- Claim C1 witness: the CLI keeps the first candidate; the form keeps
the last candidate when nothing matches the query and the exact match when
one exists. -/
theorem c1_selection_policy_witness :
    (∃ prof, JournalRanking.get_journal_categories
      ⟨.ok [⟨[⟨some "w1", some "First One"⟩, ⟨some "w2", some "Second One"⟩]⟩], .ok []⟩ =
        some prof ∧ prof.journal = "First One") ∧
    RankingApp.selectCandidate "zzz"
      [⟨some "w1", some "First One"⟩, ⟨some "w2", some "Second One"⟩] =
      .ok (some ("w2", "Second One")) ∧
    RankingApp.selectCandidate "second one"
      [⟨some "w1", some "First One"⟩, ⟨some "w2", some "Second One"⟩] =
      .ok (some ("w2", "Second One")) :=
  ⟨c1_selection_policy.1
      ⟨.ok [⟨[⟨some "w1", some "First One"⟩, ⟨some "w2", some "Second One"⟩]⟩], .ok []⟩
      [⟨[⟨some "w1", some "First One"⟩, ⟨some "w2", some "Second One"⟩]⟩]
      ⟨[⟨some "w1", some "First One"⟩, ⟨some "w2", some "Second One"⟩]⟩
      ⟨some "w1", some "First One"⟩ "w1" "First One" []
      rfl rfl rfl rfl (by decide) rfl rfl,
   c1_selection_policy.2.2 "zzz"
      [⟨some "w1", some "First One"⟩, ⟨some "w2", some "Second One"⟩]
      (by decide) (by decide) ⟨some "w2", some "Second One"⟩ (by decide)
      "w2" "Second One" rfl rfl,
   c1_selection_policy.2.1 "second one"
      [⟨some "w1", some "First One"⟩, ⟨some "w2", some "Second One"⟩]
      ⟨some "w2", some "Second One"⟩ (by decide) "w2" "Second One" rfl rfl (by decide)⟩
